import Mathlib

/-!
Verification of the tracking-number classification engine
(`tracking_numbers/checksum_validator.py`, `tracking_numbers/definition.py`,
`tracking_numbers/types.py`) via a shallow embedding in Lean.

Python exceptions are modelled with `Except PyError`, Python `None` via
`Option`, and Python dicts as insertion-ordered association lists with
first-key lookup and in-place update (matching CPython dict semantics).
Strings are ASCII: the model of `int(...)` parsing covers the ASCII
whitespace / sign / digit / underscore grammar of CPython, which is the
alphabet tracking numbers use.
-/

namespace TrackingNumbers

/-- Exceptions that the modelled code can raise. -/
inductive PyError where
  | valueError
  | typeError
  | zeroDivisionError
deriving DecidableEq

instance exceptDecEq {ε α : Type} [DecidableEq ε] [DecidableEq α] :
    DecidableEq (Except ε α) := fun x y =>
  match x, y with
  | Except.ok a, Except.ok b =>
      if h : a = b then Decidable.isTrue (by rw [h])
      else Decidable.isFalse (by simp [h])
  | Except.error e1, Except.error e2 =>
      if h : e1 = e2 then Decidable.isTrue (by rw [h])
      else Decidable.isFalse (by simp [h])
  | Except.ok _, Except.error _ => Decidable.isFalse (by simp)
  | Except.error _, Except.ok _ => Decidable.isFalse (by simp)

/-- A Python value stored in an `Info` dict: `None`, a string, or an int. -/
inductive PyVal where
  | pynone
  | pystr (s : String)
  | pyint (n : Int)
deriving DecidableEq

/-- ASCII whitespace characters stripped by Python `int(...)` and `str.strip()`. -/
def pyIsSpace (c : Char) : Bool :=
  c = ' ' || c = '\t' || c = '\n' || c = '\x0d' || c = '\x0b' || c = '\x0c'

/-- Strip leading and trailing Python whitespace from a character list. -/
def stripPySpace (cs : List Char) : List Char :=
  ((cs.dropWhile pyIsSpace).reverse.dropWhile pyIsSpace).reverse

/-- Numeric value of an ASCII digit character. -/
def digitVal (c : Char) : Int :=
  Int.ofNat (c.toNat - 48)

/-- Parse the digit part of a Python integer literal after the first digit:
digits optionally separated by single underscores (CPython grammar
`digit (digit | "_" digit)*`). -/
def parseRestDigits (acc : Nat) : List Char → Option Nat
  | [] => some acc
  | c :: rest =>
      if c = '_' then
        match rest with
        | [] => none
        | c2 :: rest2 =>
            if c2.isDigit then parseRestDigits (acc * 10 + (c2.toNat - 48)) rest2
            else none
      else if c.isDigit then parseRestDigits (acc * 10 + (c.toNat - 48)) rest
      else none

/-- Parse a nonempty unsigned digit string with optional internal underscores. -/
def parseUDigits : List Char → Option Nat
  | [] => none
  | c :: rest => if c.isDigit then parseRestDigits (c.toNat - 48) rest else none

/-- Model of CPython `int(s)` on ASCII strings: strip whitespace, optional
single sign, then a nonempty underscore-separated digit run.  `none` models
a raised `ValueError`. -/
def pyInt (s : String) : Option Int :=
  match stripPySpace s.toList with
  | [] => none
  | c :: rest =>
      if c = '+' then (parseUDigits rest).map Int.ofNat
      else if c = '-' then (parseUDigits rest).map (fun n => -(Int.ofNat n))
      else (parseUDigits (c :: rest)).map Int.ofNat

/-- Model of `int(c)` on a single-character string, as raised by the checksum
loops (`int(digit)`); raising `ValueError` on a non-digit. -/
def pyIntChar (c : Char) : Except PyError Int :=
  match pyInt (String.singleton c) with
  | some n => Except.ok n
  | none => Except.error PyError.valueError

/-- Python `%` on integers (sign follows the divisor, i.e. floor modulus);
a zero divisor raises `ZeroDivisionError`. -/
def pyMod (a b : Int) : Except PyError Int :=
  if b = 0 then Except.error PyError.zeroDivisionError else Except.ok (Int.fmod a b)

/-- A serial number: an ordered sequence of single-character symbols
(`types.SerialNumber = List[str]`). -/
abbrev SerialNumber := List Char

/-- The sum of `int(digit) * weight` over position-paired `(symbol, weight)`
pairs, raising `ValueError` at the first non-digit symbol, as done by the
loops of `S10._check_digit` and `SumProductWithWeightsAndModulo._check_digit`. -/
def weightedSum : List (Char × Int) → Except PyError Int
  | [] => Except.ok 0
  | (c, w) :: rest => do
      let d ← pyIntChar c
      let s ← weightedSum rest
      pure (d * w + s)

/-- The S10 positional weights (`S10.WEIGHTS`). -/
def s10Weights : List Int := [8, 6, 4, 2, 3, 5, 9, 7]

/-- `S10._check_digit`: weight the first eight digits, sum, reduce mod 11,
map remainder 1 to 0 and remainder 0 to 5, else take `11 - remainder`. -/
def s10CheckDigit (serial : SerialNumber) : Except PyError Int := do
  let total ← weightedSum (List.zip serial s10Weights)
  let remainder := Int.fmod total 11
  if remainder = 1 then pure 0
  else if remainder = 0 then pure 5
  else pure (11 - remainder)

/-- Python truthiness of an optional multiplier (`if ... and self.odds_multiplier`):
`None` and `0` are falsy. -/
def multTruthy : Option Int → Bool
  | none => false
  | some m => m ≠ 0

/-- The accumulation loop of `Mod10._check_digit`, carrying the 0-based index. -/
def mod10Total (odds evens : Option Int) : List Char → Nat → Except PyError Int
  | [], _ => Except.ok 0
  | c :: rest, i => do
      let d ← pyIntChar c
      let s ← mod10Total odds evens rest (i + 1)
      let term :=
        if i % 2 = 1 && multTruthy odds then d * odds.getD 0
        else if i % 2 = 0 && multTruthy evens then d * evens.getD 0
        else d
      pure (term + s)

/-- `Mod10._check_digit`. -/
def mod10CheckDigit (odds evens : Option Int) (serial : SerialNumber) :
    Except PyError Int := do
  let total ← mod10Total odds evens serial 0
  let check := Int.fmod total 10
  if check ≠ 0 then pure (10 - check) else pure check

/-- `types.to_int`: join the symbols into one string and parse it as an integer. -/
def toIntSerial (serial : SerialNumber) : Except PyError Int :=
  match pyInt (String.mk serial) with
  | some n => Except.ok n
  | none => Except.error PyError.valueError

/-- `Mod7._check_digit`: the whole serial number as one integer, mod 7. -/
def mod7CheckDigit (serial : SerialNumber) : Except PyError Int := do
  let n ← toIntSerial serial
  pure (Int.fmod n 7)

/-- The per-symbol value used by `Mod_37_36._check_digit`: letters map via
`ord(char.upper()) - ord("A") + 10`, other characters via `int(char)`. -/
def mod3736SymVal (c : Char) : Except PyError Int :=
  if c.isAlpha then Except.ok (Int.ofNat c.toUpper.toNat - 65 + 10)
  else pyIntChar c

/-- The rolling loop of `Mod_37_36._check_digit` over the serial symbols. -/
def mod3736Go (cd : Int) : List Char → Except PyError Int
  | [] => Except.ok cd
  | c :: rest => do
      let val ← mod3736SymVal c
      let cd1 := val + cd
      let cd2 := if cd1 > 36 then cd1 - 36 else cd1
      let cd3 := cd2 * 2
      let cd4 := if cd3 > 36 then cd3 - 37 else cd3
      mod3736Go cd4 rest

/-- Final rendering step shared by code and spec: digits 0-9 as themselves,
10-35 as the letters A-Z. -/
def renderBase36 (r : Int) : String :=
  if r < 10 then toString r
  else String.singleton (Char.ofNat (r.toNat - 10 + 65))

/-- `Mod_37_36._check_digit`: run the rolling loop from 36, take `37 - value`
(mapping 36 to 0), defensively require the result in `[0, 36)`, and render. -/
def mod3736CheckDigit (serial : SerialNumber) : Except PyError String := do
  let cdLoop ← mod3736Go 36 serial
  let r0 := 37 - cdLoop
  let r := if r0 = 36 then 0 else r0
  if r < 0 ∨ 36 ≤ r then Except.error PyError.valueError
  else pure (renderBase36 r)

/-- `SumProductWithWeightsAndModulo._check_digit`. -/
def sumProductCheckDigit (weights : List Int) (firstModulo secondModulo : Int)
    (serial : SerialNumber) : Except PyError Int := do
  let total ← weightedSum (List.zip serial weights)
  let a ← pyMod total firstModulo
  pyMod a secondModulo

/-- The accumulation loop of `Luhn._check_digit` over the reversed digits,
carrying the 0-based index in the reversed order. -/
def luhnTotal : List Char → Nat → Except PyError Int
  | [], _ => Except.ok 0
  | c :: rest, i => do
      let x0 ← pyIntChar c
      let s ← luhnTotal rest (i + 1)
      let x1 := if i % 2 = 0 then x0 * 2 else x0
      let x2 := if x1 > 9 then x1 - 9 else x1
      pure (x2 + s)

/-- `Luhn._check_digit`. -/
def luhnCheckDigit (serial : SerialNumber) : Except PyError Int := do
  let total ← luhnTotal serial.reverse 0
  let check := Int.fmod total 10
  if check ≠ 0 then pure (10 - check) else pure check

/-- The closed family of checksum validators built by
`ChecksumValidator.from_spec`. -/
inductive ChecksumValidator where
  | s10
  | mod10 (oddsMultiplier evensMultiplier : Option Int)
  | mod7
  | mod3736
  | sumProduct (weights : List Int) (firstModulo secondModulo : Int)
  | luhn

/-- `_check_digit` dispatch; most variants return an int, `Mod_37_36`
returns a string. -/
def checkDigit : ChecksumValidator → SerialNumber → Except PyError (Int ⊕ String)
  | ChecksumValidator.s10, s => (s10CheckDigit s).map Sum.inl
  | ChecksumValidator.mod10 o e, s => (mod10CheckDigit o e s).map Sum.inl
  | ChecksumValidator.mod7, s => (mod7CheckDigit s).map Sum.inl
  | ChecksumValidator.mod3736, s => (mod3736CheckDigit s).map Sum.inr
  | ChecksumValidator.sumProduct w m1 m2, s => (sumProductCheckDigit w m1 m2 s).map Sum.inl
  | ChecksumValidator.luhn, s => (luhnCheckDigit s).map Sum.inl

/-- The shared default `ChecksumValidator.passes` body applied to an already
computed check-digit result and a string-typed supplied check digit:
`try: return self._check_digit(serial) == int(check_digit)` with
`ValueError` / `TypeError` converted to `False`; other exceptions propagate. -/
def defaultPasses (r : Except PyError (Int ⊕ String)) (checkDigitStr : String) :
    Except PyError Bool :=
  match r with
  | Except.error PyError.valueError => Except.ok false
  | Except.error PyError.typeError => Except.ok false
  | Except.error e => Except.error e
  | Except.ok res =>
      Except.ok (match pyInt checkDigitStr with
        | none => false
        | some k => res = Sum.inl k)

/-- Public `passes(serial_number, check_digit)` with a string check digit, as
declared by the `ChecksumValidator` signature: the default body for every
variant except `Mod_37_36`, which overrides it with a direct string
comparison of the rendered check digit (no numeric parse, exceptions from
`_check_digit` uncaught). -/
def passesStr (v : ChecksumValidator) (serial : SerialNumber) (checkDigitStr : String) :
    Except PyError Bool :=
  match v with
  | ChecksumValidator.mod3736 =>
      (mod3736CheckDigit serial).map (fun s => s = checkDigitStr)
  | _ => defaultPasses (checkDigit v serial) checkDigitStr

/-- `passes` as invoked by `TrackingNumberDefinition._get_checksum_errors`,
which passes `int(check_digit)` (an int, not a str).  For the default body
`int(...)` of an int is the identity; for `Mod_37_36` the overridden body
compares a string against an int, which in Python is `False` without error
(while a `_check_digit` exception still propagates). -/
def passesInt (v : ChecksumValidator) (serial : SerialNumber) (n : Int) :
    Except PyError Bool :=
  match v with
  | ChecksumValidator.mod3736 => (mod3736CheckDigit serial).map (fun _ => false)
  | _ =>
      match checkDigit v serial with
      | Except.error PyError.valueError => Except.ok false
      | Except.error PyError.typeError => Except.ok false
      | Except.error e => Except.error e
      | Except.ok res => Except.ok (res = Sum.inl n)

/-! ### Python dicts as insertion-ordered association lists -/

/-- Dict lookup: the value of the first (hence, for well-formed dicts, only)
entry with the given key; `none` models a missing key. -/
def dget {α : Type} : List (String × α) → String → Option α
  | [], _ => none
  | (k0, v) :: rest, k => if k = k0 then some v else dget rest k

/-- Dict assignment `d[k] = v`: update an existing key in place, else append. -/
def dset {α : Type} : List (String × α) → String → α → List (String × α)
  | [], k, v => [(k, v)]
  | (k0, v0) :: rest, k, v =>
      if k = k0 then (k0, v) :: rest else (k0, v0) :: dset rest k v

/-- Dict union `d1 | d2` (right side wins, as in Python 3.9+). -/
def dunion {α : Type} (d1 d2 : List (String × α)) : List (String × α) :=
  d2.foldl (fun acc p => dset acc p.1 p.2) d1

/-- An `Info` payload: an open string-keyed mapping (`types.Info`). -/
abbrev Info := List (String × PyVal)

/-- The named-capture-group map produced by `match.groupdict()`: each group
name maps to its captured string, or to `None` when the group did not
participate in the match. -/
abbrev MatchData := List (String × Option String)

/-- `match_data.get(k)`: `none` for a missing key and for a non-participating
group alike. -/
def mdGet (md : MatchData) (k : String) : Option String :=
  match dget md k with
  | some v => v
  | none => none

/-! ### Data model (`types.py`) -/

/-- `types.Courier`. -/
structure Courier where
  code : String
  name : String
deriving DecidableEq

/-- `types.Product`. -/
structure Product where
  name : String
deriving DecidableEq

/-- `types.ValidationError`: a `(kind, message)` pair. -/
abbrev ValidationError := String × String

/-- `types.TrackingNumber`: the immutable result of one `test` call. -/
structure TrackingNumber where
  number : String
  courier : Courier
  product : Product
  serialNumber : Option SerialNumber
  trackingUrl : Option String
  matchData : MatchData
  additional : List (String × Info)
  validationErrors : List ValidationError
deriving DecidableEq

/-- `TrackingNumber.valid`: no validation errors. -/
def TrackingNumber.valid (tn : TrackingNumber) : Bool :=
  tn.validationErrors.isEmpty

/-- Lift an optional capture to the Python value stored under `"code"` by
`TrackingNumber.service_type`. -/
def optStrVal : Option String → PyVal
  | none => PyVal.pynone
  | some s => PyVal.pystr s

/-- `TrackingNumber.service_type`:
`{"code": match_data.get("ServiceType")} | additional.get("Service Type", {})`. -/
def serviceType (tn : TrackingNumber) : Info :=
  dunion [("code", optStrVal (mdGet tn.matchData "ServiceType"))]
    ((dget tn.additional "Service Type").getD [])

/-- One merge step of `TrackingNumber.courier_info`: skip `None` values,
divert key `"courier"` to `"name"` and `"courier_url"` to `"url"`, copy the
rest verbatim. -/
def courierMergeStep (info : Info) (p : String × PyVal) : Info :=
  if p.2 = PyVal.pynone then info
  else if p.1 = "courier" then dset info "name" p.2
  else if p.1 = "courier_url" then dset info "url" p.2
  else dset info p.1 p.2

/-- `TrackingNumber.courier_info`: start from the courier dataclass fields and
fold the matched `"Courier"` Info (if any) through `courierMergeStep`. -/
def courierInfo (tn : TrackingNumber) : Info :=
  let base : Info :=
    [("code", PyVal.pystr tn.courier.code), ("name", PyVal.pystr tn.courier.name)]
  ((dget tn.additional "Courier").getD []).foldl courierMergeStep base

/-! ### The classification engine (`definition.py`) -/

/-- Modelled from the spec: `value_matcher.py` is not among the provided
sources; a `ValueMatcher` is used by the engine only through its single
stateless operation `matches(value) -> bool`, so it is embedded as that
boolean function. -/
def ValueMatcher := String → Bool

/-- `definition.Additional`: binds a capture group to ordered
`(ValueMatcher, Info)` pairs. -/
structure Additional where
  name : String
  regexGroupName : String
  valueMatchers : List (ValueMatcher × Info)

/-- `definition.AdditionalValidator`: the list of extractor names that must
have produced an Info (`exists` in the specification). -/
structure AdditionalValidator where
  existsKeys : List String

/-- `definition.TrackingNumberDefinition`.  The compiled regex of the source
(`compat.parse_regex`, not among the provided sources) is embedded as its
observable behaviour: a full-match function from the candidate string to the
`groupdict()` capture map, or `none` when the pattern does not fully match.
The serial number parser (`serial_number.py`, also not provided) is embedded
as its observable behaviour, a function from the raw stripped capture to the
symbol sequence. -/
structure TrackingNumberDefinition where
  courier : Courier
  product : Product
  numberRegex : String → Option MatchData
  trackingUrlTemplate : Option String
  serialNumberParser : String → SerialNumber
  additional : List Additional
  additionalValidator : Option AdditionalValidator
  checksumValidator : Option ChecksumValidator

/-- Modelled from the spec: the default serial number parser of
`serial_number.py` with no declarative rules is the identity mapping,
splitting the string into its characters in order. -/
def specDefaultParser : String → SerialNumber := fun s => s.toList

/-- `definition._remove_whitespace`: drop every character that is pure
whitespace (those whose `str.strip()` is empty). -/
def removeWhitespace (s : String) : String :=
  String.mk (s.toList.filter (fun c => !pyIsSpace c))

/-- `TrackingNumberDefinition._get_serial_number`: parse the whitespace-free
`SerialNumber` capture when it is truthy (present and nonempty). -/
def getSerialNumber (d : TrackingNumberDefinition) (md : MatchData) :
    Option SerialNumber :=
  match mdGet md "SerialNumber" with
  | some raw => if raw = "" then none else some (d.serialNumberParser (removeWhitespace raw))
  | none => none

/-- `TrackingNumberDefinition.tracking_url`: substitute the candidate into the
URL template, if one is configured. -/
def trackingUrlOf (d : TrackingNumberDefinition) (trackingNumber : String) :
    Option String :=
  match d.trackingUrlTemplate with
  | none => none
  | some t => some (t.replace "%s" trackingNumber)

/-- The first-match scan inside `TrackingNumberDefinition._get_additional`:
test the value against each `(ValueMatcher, Info)` pair in declaration order
and return the first match's Info. -/
def firstMatchInfo (value : String) : List (ValueMatcher × Info) → Option Info
  | [] => none
  | (m, info) :: rest => if m value then some info else firstMatchInfo value rest

/-- `TrackingNumberDefinition._get_additional`: look up the bound capture;
when it is truthy (present and nonempty), strip whitespace and scan the
matchers in order. -/
def getAdditionalInfo (a : Additional) (md : MatchData) : Option Info :=
  match mdGet md a.regexGroupName with
  | none => none
  | some raw =>
      if raw = "" then none
      else firstMatchInfo (removeWhitespace raw) a.valueMatchers

/-- The extractor loop of `TrackingNumberDefinition.test`: record each
extractor's Info under its name — but only when the Info is truthy
(`if info:` skips both `None` and an empty dict). -/
def buildAdditionalGo (md : MatchData) (acc : List (String × Info)) :
    List Additional → List (String × Info)
  | [] => acc
  | a :: rest =>
      buildAdditionalGo md
        (match getAdditionalInfo a md with
          | some info => if info = [] then acc else dset acc a.name info
          | none => acc)
        rest

/-- The extracted additional-information map of one `test` call. -/
def buildAdditional (additional : List Additional) (md : MatchData) :
    List (String × Info) :=
  buildAdditionalGo md [] additional

/-- Python truthiness of the optional serial number
(`if not serial_number`): falsy when absent or empty. -/
def serialFalsy : Option SerialNumber → Bool
  | none => true
  | some l => l.isEmpty

/-- `TrackingNumberDefinition._get_checksum_errors`.  Note that the source
passes `int(check_digit)` to `passes`, so a non-numeric `CheckDigit` capture
raises `ValueError` here rather than failing the check. -/
def getChecksumErrors (d : TrackingNumberDefinition) (serial : Option SerialNumber)
    (md : MatchData) : Except PyError (Option ValidationError) :=
  match d.checksumValidator with
  | none => Except.ok none
  | some v =>
      if serialFalsy serial then
        Except.ok (some ("checksum", "SerialNumber not found"))
      else
        match mdGet md "CheckDigit" with
        | none => Except.ok (some ("checksum", "CheckDigit not found"))
        | some cd =>
            if cd = "" then Except.ok (some ("checksum", "CheckDigit not found"))
            else
              match pyInt cd with
              | none => Except.error PyError.valueError
              | some n =>
                  (passesInt v (serial.getD []) n).map
                    (fun b => if b then none
                      else some ("checksum", "Checksum validation failed"))

/-- `TrackingNumberDefinition._get_additional_error`: one error per entry of
the required list whose key is not among the extracted Infos. -/
def getAdditionalError (d : TrackingNumberDefinition)
    (additional : List (String × Info)) : List ValidationError :=
  match d.additionalValidator with
  | none => []
  | some av =>
      (av.existsKeys.filter (fun k => (dget additional k).isNone)).map
        (fun k => (k, k ++ " not found in additional information"))

/-- `TrackingNumberDefinition._get_validation_errors`: the optional checksum
error followed by the additional-field errors. -/
def getValidationErrors (d : TrackingNumberDefinition) (serial : Option SerialNumber)
    (additional : List (String × Info)) (md : MatchData) :
    Except PyError (List ValidationError) := do
  let checksumError ← getChecksumErrors d serial md
  pure (checksumError.toList ++ getAdditionalError d additional)

/-- `TrackingNumberDefinition.test`: full-match the candidate, extract the
serial number, URL, and additional Infos, compute validation errors, and
assemble the result.  `Except.error` models an exception escaping `test`. -/
def test (d : TrackingNumberDefinition) (trackingNumber : String) :
    Except PyError (Option TrackingNumber) :=
  match d.numberRegex trackingNumber with
  | none => Except.ok none
  | some md => do
      let serial := getSerialNumber d md
      let additional := buildAdditional d.additional md
      let errors ← getValidationErrors d serial additional md
      pure (some
        { number := trackingNumber
          courier := d.courier
          product := d.product
          serialNumber := serial
          trackingUrl := trackingUrlOf d trackingNumber
          matchData := md
          additional := additional
          validationErrors := errors })

/-! ### Result projections used by concrete evaluations -/

/-- The validation errors of a present result (empty list otherwise). -/
def resultErrors (r : Except PyError (Option TrackingNumber)) : List ValidationError :=
  match r with
  | Except.ok (some tn) => tn.validationErrors
  | _ => []

/-- The serial number of a present result. -/
def resultSerial (r : Except PyError (Option TrackingNumber)) : Option SerialNumber :=
  match r with
  | Except.ok (some tn) => tn.serialNumber
  | _ => none

/-- The extracted additional-information map of a present result. -/
def resultAdditional (r : Except PyError (Option TrackingNumber)) :
    List (String × Info) :=
  match r with
  | Except.ok (some tn) => tn.additional
  | _ => []

/-! ### Association-list (dict) lemmas -/

theorem dget_dset {α : Type} (d : List (String × α)) (k k' : String) (v : α) :
    dget (dset d k v) k' = if k' = k then some v else dget d k' := by
  induction d with
  | nil => simp [dget, dset]
  | cons hd tl ih =>
      obtain ⟨k0, v0⟩ := hd
      by_cases hk : k = k0
      · subst hk
        by_cases hk' : k' = k <;> simp [dget, dset, hk']
      · by_cases hk' : k' = k0
        · subst hk'
          simp [dget, dset, hk, Ne.symm hk]
        · simp [dget, dset, hk, hk', ih]

theorem dget_eq_none_of_not_mem {α : Type} (d : List (String × α)) (k : String)
    (h : k ∉ d.map Prod.fst) : dget d k = none := by
  induction d with
  | nil => rfl
  | cons hd tl ih =>
      simp only [List.map_cons, List.mem_cons] at h
      push_neg at h
      simp [dget, h.1, ih h.2]

theorem dunion_cons {α : Type} (d1 : List (String × α)) (k : String) (v : α)
    (rest : List (String × α)) :
    dunion d1 ((k, v) :: rest) = dunion (dset d1 k v) rest := rfl

theorem dget_dunion_of_not_mem {α : Type} (d1 d2 : List (String × α)) (k : String)
    (h : k ∉ d2.map Prod.fst) : dget (dunion d1 d2) k = dget d1 k := by
  induction d2 generalizing d1 with
  | nil => rfl
  | cons hd tl ih =>
      obtain ⟨k0, v0⟩ := hd
      simp only [List.map_cons, List.mem_cons] at h
      push_neg at h
      rw [dunion_cons, ih _ h.2, dget_dset, if_neg h.1]

theorem dget_dunion {α : Type} (d1 d2 : List (String × α))
    (h : (d2.map Prod.fst).Nodup) (k : String) :
    dget (dunion d1 d2) k =
      match dget d2 k with
      | some v => some v
      | none => dget d1 k := by
  induction d2 generalizing d1 with
  | nil => rfl
  | cons hd tl ih =>
      obtain ⟨k0, v0⟩ := hd
      simp only [List.map_cons, List.nodup_cons] at h
      by_cases hk : k = k0
      · subst hk
        rw [dunion_cons, dget_dunion_of_not_mem _ _ _ h.1,
          dget_dset, if_pos rfl]
        simp [dget]
      · rw [dunion_cons, ih _ h.2]
        simp only [dget, hk, if_false]
        cases dget tl k <;> simp [dget_dset, hk]

/-! ### Except-monad reduction lemmas -/

@[simp]
theorem pybind_ok {α β : Type} (a : α) (f : α → Except PyError β) :
    (Except.ok a >>= f : Except PyError β) = f a := rfl

@[simp]
theorem pybind_error {α β : Type} (e : PyError) (f : α → Except PyError β) :
    (Except.error e >>= f : Except PyError β) = Except.error e := rfl

@[simp]
theorem pymap_ok {α β : Type} (g : α → β) (a : α) :
    (g <$> (Except.ok a : Except PyError α)) = Except.ok (g a) := rfl

@[simp]
theorem pymap_error {α β : Type} (g : α → β) (e : PyError) :
    (g <$> (Except.error e : Except PyError α)) = Except.error e := rfl

@[simp]
theorem pypure {α : Type} (a : α) :
    (pure a : Except PyError α) = Except.ok a := rfl

@[simp]
theorem pyexmap_ok {α β : Type} (g : α → β) (a : α) :
    Except.map g (Except.ok a : Except PyError α) = Except.ok (g a) := rfl

@[simp]
theorem pyexmap_error {α β : Type} (g : α → β) (e : PyError) :
    Except.map g (Except.error e : Except PyError α) = Except.error e := rfl

/-! ### Python `int(...)` parsing lemmas -/

theorem stripPySpace_singleton (c : Char) :
    stripPySpace [c] = if pyIsSpace c then [] else [c] := by
  by_cases h : pyIsSpace c <;> simp [stripPySpace, List.dropWhile, h]

theorem pyIsSpace_eq_false_of_isDigit (c : Char) (h : c.isDigit = true) :
    pyIsSpace c = false := by
  by_contra hsp
  rw [Bool.not_eq_false] at hsp
  simp only [pyIsSpace, Bool.or_eq_true, decide_eq_true_eq] at hsp
  rcases hsp with ((((rfl | rfl) | rfl) | rfl) | rfl) | rfl <;> exact absurd h (by decide)

theorem singleton_toList (c : Char) : (String.singleton c).toList = [c] := rfl

theorem pyIntChar_digit (c : Char) (h : c.isDigit = true) :
    pyIntChar c = Except.ok (digitVal c) := by
  have hplus : c ≠ '+' := by rintro rfl; exact absurd h (by decide)
  have hminus : c ≠ '-' := by rintro rfl; exact absurd h (by decide)
  simp [pyIntChar, pyInt, singleton_toList, stripPySpace_singleton,
    pyIsSpace_eq_false_of_isDigit c h, hplus, hminus, parseUDigits, h,
    parseRestDigits, digitVal]

theorem pyIntChar_nondigit (c : Char) (h : c.isDigit = false) :
    pyIntChar c = Except.error PyError.valueError := by
  by_cases hsp : pyIsSpace c
  · simp [pyIntChar, pyInt, singleton_toList, stripPySpace_singleton, hsp]
  · by_cases hplus : c = '+'
    · subst hplus
      simp [pyIntChar, pyInt, singleton_toList, stripPySpace_singleton, hsp,
        parseUDigits]
    · by_cases hminus : c = '-'
      · subst hminus
        simp [pyIntChar, pyInt, singleton_toList, stripPySpace_singleton, hsp,
          parseUDigits]
      · simp [pyIntChar, pyInt, singleton_toList, stripPySpace_singleton, hsp,
          hplus, hminus, parseUDigits, h]

theorem pyIntChar_cases (c : Char) :
    pyIntChar c = Except.ok (digitVal c) ∧ c.isDigit = true ∨
      pyIntChar c = Except.error PyError.valueError ∧ c.isDigit = false := by
  cases h : c.isDigit
  · exact Or.inr ⟨pyIntChar_nondigit c h, rfl⟩
  · exact Or.inl ⟨pyIntChar_digit c h, rfl⟩

/-! ### Weighted-sum loop lemmas -/

/-- The pure value of a weighted digit sum, used to state loop results. -/
def weightedValue (l : List (Char × Int)) : Int :=
  l.foldr (fun p acc => digitVal p.1 * p.2 + acc) 0

theorem weightedSum_ok (l : List (Char × Int)) (h : ∀ p ∈ l, (p.1).isDigit = true) :
    weightedSum l = Except.ok (weightedValue l) := by
  induction l with
  | nil => rfl
  | cons hd tl ih =>
      obtain ⟨c, w⟩ := hd
      have hc : c.isDigit = true := h (c, w) (List.mem_cons_self _ _)
      have htl := ih (fun p hp => h p (List.mem_cons_of_mem _ hp))
      simp [weightedSum, pyIntChar_digit c hc, htl, weightedValue, List.foldr]

theorem weightedSum_error_of_mem (l : List (Char × Int)) (p : Char × Int)
    (hp : p ∈ l) (h : (p.1).isDigit = false) :
    weightedSum l = Except.error PyError.valueError := by
  induction l with
  | nil => cases hp
  | cons hd tl ih =>
      obtain ⟨c, w⟩ := hd
      rcases List.mem_cons.mp hp with rfl | hmem
      · simp [weightedSum, pyIntChar_nondigit _ h]
      · cases hc : c.isDigit
        · simp [weightedSum, pyIntChar_nondigit c hc]
        · simp [weightedSum, pyIntChar_digit c hc, ih hmem]

theorem weightedSum_error_type (l : List (Char × Int)) (e : PyError)
    (h : weightedSum l = Except.error e) : e = PyError.valueError := by
  induction l with
  | nil => simp [weightedSum] at h
  | cons hd tl ih =>
      obtain ⟨c, w⟩ := hd
      rcases pyIntChar_cases c with ⟨hc, _⟩ | ⟨hc, _⟩
      · cases htl : weightedSum tl with
        | ok n => simp [weightedSum, hc, htl] at h
        | error e' =>
            simp only [weightedSum, hc, htl, pybind_ok, pybind_error,
              Except.error.injEq] at h
            exact ih (h ▸ htl)
      · simp only [weightedSum, hc, pybind_error, Except.error.injEq] at h
        exact h ▸ rfl

/-! ### Mod10 / Luhn / Mod7 loop lemmas -/

theorem mod10Total_error_of_mem (o e : Option Int) (l : List Char) (i : Nat)
    (c : Char) (hc : c ∈ l) (h : c.isDigit = false) :
    mod10Total o e l i = Except.error PyError.valueError := by
  induction l generalizing i with
  | nil => cases hc
  | cons hd tl ih =>
      rcases List.mem_cons.mp hc with rfl | hmem
      · simp [mod10Total, pyIntChar_nondigit _ h]
      · cases hhd : hd.isDigit
        · simp [mod10Total, pyIntChar_nondigit hd hhd]
        · simp [mod10Total, pyIntChar_digit hd hhd, ih (i + 1) hmem]

theorem mod10Total_error_type (o e : Option Int) (l : List Char) (i : Nat)
    (er : PyError) (h : mod10Total o e l i = Except.error er) :
    er = PyError.valueError := by
  induction l generalizing i with
  | nil => simp [mod10Total] at h
  | cons hd tl ih =>
      rcases pyIntChar_cases hd with ⟨hc, _⟩ | ⟨hc, _⟩
      · cases htl : mod10Total o e tl (i + 1) with
        | ok n => simp [mod10Total, hc, htl] at h
        | error e' =>
            simp only [mod10Total, hc, htl, pybind_ok, pybind_error,
              Except.error.injEq] at h
            exact ih (i + 1) (h ▸ htl)
      · simp only [mod10Total, hc, pybind_error, Except.error.injEq] at h
        exact h ▸ rfl

theorem luhnTotal_error_of_mem (l : List Char) (i : Nat) (c : Char)
    (hc : c ∈ l) (h : c.isDigit = false) :
    luhnTotal l i = Except.error PyError.valueError := by
  induction l generalizing i with
  | nil => cases hc
  | cons hd tl ih =>
      rcases List.mem_cons.mp hc with rfl | hmem
      · simp [luhnTotal, pyIntChar_nondigit _ h]
      · cases hhd : hd.isDigit
        · simp [luhnTotal, pyIntChar_nondigit hd hhd]
        · simp [luhnTotal, pyIntChar_digit hd hhd, ih (i + 1) hmem]

theorem luhnTotal_error_type (l : List Char) (i : Nat) (er : PyError)
    (h : luhnTotal l i = Except.error er) : er = PyError.valueError := by
  induction l generalizing i with
  | nil => simp [luhnTotal] at h
  | cons hd tl ih =>
      rcases pyIntChar_cases hd with ⟨hc, _⟩ | ⟨hc, _⟩
      · cases htl : luhnTotal tl (i + 1) with
        | ok n => simp [luhnTotal, hc, htl] at h
        | error e' =>
            simp only [luhnTotal, hc, htl, pybind_ok, pybind_error,
              Except.error.injEq] at h
            exact ih (i + 1) (h ▸ htl)
      · simp only [luhnTotal, hc, pybind_error, Except.error.injEq] at h
        exact h ▸ rfl

/-! ### Checksum-variant error lemmas -/

theorem s10CheckDigit_error_type (s : SerialNumber) (e : PyError)
    (h : s10CheckDigit s = Except.error e) : e = PyError.valueError := by
  cases hw : weightedSum (List.zip s s10Weights) with
  | ok n =>
      rw [s10CheckDigit, hw] at h
      simp only [pybind_ok] at h
      split_ifs at h <;> simp at h
  | error e' =>
      rw [s10CheckDigit, hw] at h
      simp only [pybind_error, Except.error.injEq] at h
      exact weightedSum_error_type _ e (h ▸ hw)

theorem mod10CheckDigit_error_type (o ev : Option Int) (s : SerialNumber) (e : PyError)
    (h : mod10CheckDigit o ev s = Except.error e) : e = PyError.valueError := by
  cases hw : mod10Total o ev s 0 with
  | ok n =>
      rw [mod10CheckDigit, hw] at h
      simp only [pybind_ok] at h
      split_ifs at h <;> simp at h
  | error e' =>
      rw [mod10CheckDigit, hw] at h
      simp only [pybind_error, Except.error.injEq] at h
      exact mod10Total_error_type o ev s 0 e (h ▸ hw)

theorem mod7CheckDigit_error_type (s : SerialNumber) (e : PyError)
    (h : mod7CheckDigit s = Except.error e) : e = PyError.valueError := by
  cases hp : pyInt (String.mk s) with
  | some n => simp [mod7CheckDigit, toIntSerial, hp] at h
  | none => simp [mod7CheckDigit, toIntSerial, hp] at h; exact h.symm

theorem luhnCheckDigit_error_type (s : SerialNumber) (e : PyError)
    (h : luhnCheckDigit s = Except.error e) : e = PyError.valueError := by
  cases hw : luhnTotal s.reverse 0 with
  | ok n =>
      rw [luhnCheckDigit, hw] at h
      simp only [pybind_ok] at h
      split_ifs at h <;> simp at h
  | error e' =>
      rw [luhnCheckDigit, hw] at h
      simp only [pybind_error, Except.error.injEq] at h
      exact luhnTotal_error_type s.reverse 0 e (h ▸ hw)

theorem sumProductCheckDigit_error_type (w : List Int) (m1 m2 : Int)
    (hm1 : m1 ≠ 0) (hm2 : m2 ≠ 0) (s : SerialNumber) (e : PyError)
    (h : sumProductCheckDigit w m1 m2 s = Except.error e) : e = PyError.valueError := by
  cases hw : weightedSum (List.zip s w) with
  | ok n =>
      rw [sumProductCheckDigit, hw] at h
      simp [pyMod, hm1, hm2] at h
  | error e' =>
      rw [sumProductCheckDigit, hw] at h
      simp only [pybind_error, Except.error.injEq] at h
      exact weightedSum_error_type _ e (h ▸ hw)

/-- If the computed check-digit result can only have raised `ValueError`, the
default `passes` body always returns a boolean. -/
theorem defaultPasses_total (r : Except PyError (Int ⊕ String)) (cd : String)
    (h : ∀ e, r = Except.error e → e = PyError.valueError) :
    ∃ b, defaultPasses r cd = Except.ok b := by
  cases r with
  | ok v => exact ⟨_, rfl⟩
  | error e => rw [h e rfl]; exact ⟨false, rfl⟩

/-! ### Spec-side descriptions of the checksum algorithms -/

/-- The S10 check digit as described by the spec: weight the digits at
positions 0..7 by `[8,6,4,2,3,5,9,7]` (positions beyond 7 dropped by pairing
truncation), sum, reduce mod 11, and map remainder 1 to 0 and remainder 0
to 5, else `11 - remainder`. -/
def specS10 (s : SerialNumber) : Int :=
  let remainder := Int.fmod (weightedValue (List.zip s s10Weights)) 11
  if remainder = 1 then 0
  else if remainder = 0 then 5
  else 11 - remainder

/-- The 36 serial symbols of the Mod_37_36 scheme. -/
def base36Chars : List Char := "0123456789ABCDEFGHIJKLMNOPQRSTUVWXYZ".toList

/-- The spec-side symbol value: digits keep their value, letters A-Z are
valued 10-35. -/
def specSymVal (c : Char) : Int :=
  if c.isDigit then digitVal c else Int.ofNat (c.toNat - 65) + 10

/-- One step of the spec-side Mod_37_36 rolling scheme: add the symbol value,
subtract 36 if the running value now exceeds 36, double it, subtract 37 if it
now exceeds 36. -/
def specRollStep (rv v : Int) : Int :=
  let a := v + rv
  let b := if a > 36 then a - 36 else a
  let c := b * 2
  if c > 36 then c - 37 else c

/-- The spec-side Mod_37_36 rolling value over a list of symbol values. -/
def specRoll (rv : Int) : List Int → Int
  | [] => rv
  | v :: rest => specRoll (specRollStep rv v) rest

/-- The spec-side Mod_37_36 check digit: roll from 36, take `37 - value`
(with 36 mapped to 0) and render as a digit or letter. -/
def specMod3736 (s : SerialNumber) : String :=
  let r0 := 37 - specRoll 36 (s.map specSymVal)
  renderBase36 (if r0 = 36 then 0 else r0)

theorem base36_symVal : ∀ c ∈ base36Chars,
    mod3736SymVal c = Except.ok (specSymVal c) ∧
      0 ≤ specSymVal c ∧ specSymVal c ≤ 35 := by decide

theorem mod3736Go_eq (s : SerialNumber) (h : ∀ c ∈ s, c ∈ base36Chars) :
    ∀ cd : Int, mod3736Go cd s = Except.ok (specRoll cd (s.map specSymVal)) := by
  induction s with
  | nil => intro cd; rfl
  | cons c rest ih =>
      intro cd
      have hc := (base36_symVal c (h c (List.mem_cons_self _ _))).1
      have hrest := ih (fun x hx => h x (List.mem_cons_of_mem _ hx))
      simp only [mod3736Go, hc, pybind_ok, List.map_cons, specRoll]
      exact hrest _

theorem specRoll_bounds (vals : List Int) (h : ∀ v ∈ vals, 0 ≤ v ∧ v ≤ 35) :
    ∀ rv : Int, 1 ≤ rv → rv ≤ 36 →
      1 ≤ specRoll rv vals ∧ specRoll rv vals ≤ 36 := by
  induction vals with
  | nil => exact fun rv h1 h2 => ⟨h1, h2⟩
  | cons v rest ih =>
      intro rv h1 h2
      have hv := h v (List.mem_cons_self _ _)
      have hstep : 1 ≤ specRollStep rv v ∧ specRollStep rv v ≤ 36 := by
        unfold specRollStep
        dsimp only
        split_ifs <;> omega
      exact ih (fun x hx => h x (List.mem_cons_of_mem _ hx)) _ hstep.1 hstep.2

/-! ### Spec-side description of `courier_info` -/

/-- The merge described for `courier_info`: walk the matched Courier Info in
order; skip entries whose value is `None`; an entry keyed `"courier"`
overwrites `"name"`; an entry keyed `"courier_url"` is stored under `"url"`;
every other entry is merged verbatim. -/
def specCourierMerge (info : Info) : Info → Info
  | [] => info
  | (k, v) :: rest =>
      specCourierMerge
        (if v = PyVal.pynone then info
         else if k = "courier" then dset info "name" v
         else if k = "courier_url" then dset info "url" v
         else dset info k v) rest

/-- The `courier_info` view described by the claim: start from the Courier's
own `{code, name}` and merge the matched `"Courier"` Info, if any. -/
def specCourierInfo (c : Courier) : Option Info → Info
  | none => [("code", PyVal.pystr c.code), ("name", PyVal.pystr c.name)]
  | some info =>
      specCourierMerge
        [("code", PyVal.pystr c.code), ("name", PyVal.pystr c.name)] info

theorem foldl_courierMergeStep_eq (l : Info) :
    ∀ b : Info, l.foldl courierMergeStep b = specCourierMerge b l := by
  induction l with
  | nil => intro b; rfl
  | cons hd tl ih =>
      intro b
      obtain ⟨k, v⟩ := hd
      simp only [List.foldl_cons, specCourierMerge]
      rw [ih]
      rfl

/-! ### First-match and extractor-loop lemmas -/

theorem firstMatchInfo_first (value : String) (ms : List (ValueMatcher × Info)) :
    ∀ (j : Nat) (hj : j < ms.length),
      (ms.get ⟨j, hj⟩).1 value = true →
      (∀ (i : Nat) (hi : i < j), (ms.get ⟨i, Nat.lt_trans hi hj⟩).1 value = false) →
      firstMatchInfo value ms = some (ms.get ⟨j, hj⟩).2 := by
  induction ms with
  | nil => intro j hj; cases hj
  | cons hd tl ih =>
      obtain ⟨m, info⟩ := hd
      intro j hj hmatch hbefore
      cases j with
      | zero =>
          simp only [List.get] at hmatch ⊢
          simp [firstMatchInfo, hmatch]
      | succ j' =>
          have hhd : m value = false := hbefore 0 (Nat.succ_pos j')
          simp only [List.get] at hhd hmatch ⊢
          simp only [firstMatchInfo, hhd, Bool.false_eq_true, if_false]
          exact ih j' (Nat.lt_of_succ_lt_succ hj) hmatch
            (fun i hi => hbefore (i + 1) (Nat.succ_lt_succ hi))

theorem firstMatchInfo_none (value : String) (ms : List (ValueMatcher × Info))
    (h : ∀ p ∈ ms, p.1 value = false) : firstMatchInfo value ms = none := by
  induction ms with
  | nil => rfl
  | cons hd tl ih =>
      obtain ⟨m, info⟩ := hd
      have hm : m value = false := h (m, info) (List.mem_cons_self _ _)
      simp only [firstMatchInfo, hm, Bool.false_eq_true, if_false]
      exact ih (fun p hp => h p (List.mem_cons_of_mem _ hp))

theorem buildGo_not_mem (md : MatchData) (as : List Additional) (k : String)
    (h : k ∉ as.map (fun a => a.name)) :
    ∀ acc, dget (buildAdditionalGo md acc as) k = dget acc k := by
  induction as with
  | nil => intro acc; rfl
  | cons a rest ih =>
      intro acc
      simp only [List.map_cons, List.mem_cons] at h
      push_neg at h
      rw [buildAdditionalGo, ih h.2]
      cases hinfo : getAdditionalInfo a md with
      | none => rfl
      | some info =>
          by_cases he : info = []
          · simp [he]
          · simp [he, dget_dset, h.1]

theorem buildGo_lookup (md : MatchData) (as : List Additional)
    (hnd : (as.map (fun a => a.name)).Nodup) (a : Additional) (ha : a ∈ as) :
    ∀ acc, dget (buildAdditionalGo md acc as) a.name =
      match getAdditionalInfo a md with
      | some info => if info = [] then dget acc a.name else some info
      | none => dget acc a.name := by
  induction as with
  | nil => cases ha
  | cons hd tl ih =>
      intro acc
      simp only [List.map_cons, List.nodup_cons] at hnd
      rcases List.mem_cons.mp ha with rfl | hmem
      · rw [buildAdditionalGo, buildGo_not_mem md tl a.name hnd.1]
        cases hinfo : getAdditionalInfo a md with
        | none => rfl
        | some info =>
            by_cases he : info = []
            · simp [he]
            · simp [he, dget_dset]
      · have hne : a.name ≠ hd.name := by
          intro heq
          exact hnd.1 (heq ▸ List.mem_map_of_mem (fun x => x.name) hmem)
        rw [buildAdditionalGo, ih hnd.2 hmem]
        cases hinfo : getAdditionalInfo hd md with
        | none => rfl
        | some info =>
            by_cases he : info = []
            · simp [he]
            · simp [he, dget_dset, hne]

/-! ### Counting helper for required-key errors -/

theorem length_filter_eq_of_nodup (l : List String) (hnd : l.Nodup) (k : String) :
    (l.filter (fun x => x = k)).length = if k ∈ l then 1 else 0 := by
  induction l with
  | nil => simp
  | cons hd tl ih =>
      rw [List.nodup_cons] at hnd
      by_cases hk : hd = k
      · subst hk
        have : ¬ (hd ∈ tl) := hnd.1
        simp [List.filter, ih hnd.2, this]
      · have : ¬ (k = hd) := fun heq => hk heq.symm
        simp [List.filter, hk, ih hnd.2, List.mem_cons, this]

/-! ### Zip/take helper for weighted prefixes -/

theorem mem_take_imp_mem_zip (l : List Char) (W : List Int) (c : Char) :
    c ∈ l.take W.length → ∃ w, (c, w) ∈ l.zip W := by
  induction l generalizing W with
  | nil => intro h; simp at h
  | cons hd tl ih =>
      intro h
      cases W with
      | nil => simp at h
      | cons w0 Wt =>
          simp only [List.length_cons, List.take_succ_cons, List.mem_cons] at h
          rcases h with rfl | hmem
          · exact ⟨w0, List.mem_cons_self _ _⟩
          · obtain ⟨w, hw⟩ := ih Wt hmem
            exact ⟨w, List.mem_cons_of_mem _ hw⟩

/-! ### Concrete definitions instantiating the engine for the claims -/

/-- Capture map of a DPD-style pattern on the candidate `"123ABX"`:
serial `"123AB"` and check digit `"X"` (a Mod_37_36 letter check digit). -/
def mdC1 : MatchData := [("SerialNumber", some "123AB"), ("CheckDigit", some "X")]

/-- A Mod_37_36 definition (DPD-style) whose pattern fully matches
`"123ABX"` with a letter check digit. -/
def defnC1 : TrackingNumberDefinition where
  courier := ⟨"dpd", "DPD"⟩
  product := ⟨"DPD Parcel"⟩
  numberRegex := fun s => if s = "123ABX" then some mdC1 else none
  trackingUrlTemplate := none
  serialNumberParser := specDefaultParser
  additional := []
  additionalValidator := none
  checksumValidator := some ChecksumValidator.mod3736

/-- An S10 definition used for the absence-contract claim. -/
def defnC4 : TrackingNumberDefinition where
  courier := ⟨"s10", "S10 International Standard"⟩
  product := ⟨"S10"⟩
  numberRegex := fun s =>
    if s = "RB123456785GB" then
      some [("SerialNumber", some "123456785"), ("CheckDigit", some "5")]
    else none
  trackingUrlTemplate := none
  serialNumberParser := specDefaultParser
  additional := []
  additionalValidator := none
  checksumValidator := some ChecksumValidator.s10

/-! ### C1 -/

/-- C1: the claim states that `test` never raises on a fully matching
candidate whose content fails a rule, and in particular that a `CheckDigit`
capture failing its numeric parse fails the checksum check with a returned
checksum error.  The code contradicts this: `_get_checksum_errors` calls
`passes(serial_number, int(check_digit))`, and the uncaught `int("X")`
raises `ValueError` out of `test` before the exception-safe `passes` body is
ever reached.  This theorem evaluates the code at the failing input: the
pattern fully matches, the check digit fails the numeric parse, and `test`
raises instead of returning a result carrying a checksum error. -/
theorem C1_checksum_exception :
    defnC1.numberRegex "123ABX" = some mdC1 ∧
    mdGet mdC1 "CheckDigit" = some "X" ∧
    pyInt "X" = none ∧
    test defnC1 "123ABX" = Except.error PyError.valueError :=
  ⟨rfl, rfl, rfl, rfl⟩

/-! ### C2 -/

/-- C2: for every serial number over the symbols 0-9 and A-Z, the Mod_37_36
check digit is computed by the spec's rolling scheme (start at 36; per
symbol add its value, subtract 36 if the value exceeds 36, double, subtract
37 if it exceeds 36; finally take 37 minus the value with 36 mapped to 0)
rendered as a digit or letter, and `passes` compares the rendered string
with the supplied check-digit string directly, case-sensitively, with no
numeric parse; the four examples evaluate as stated. -/
theorem C2_mod3736_scheme :
    (∀ s : SerialNumber, (∀ c ∈ s, c ∈ base36Chars) →
      mod3736CheckDigit s = Except.ok (specMod3736 s) ∧
      ∀ cd : String, passesStr ChecksumValidator.mod3736 s cd =
        Except.ok (decide (specMod3736 s = cd))) ∧
    mod3736CheckDigit ("12345678".toList) = Except.ok "W" ∧
    mod3736CheckDigit ("A12345".toList) = Except.ok "J" ∧
    mod3736CheckDigit ("123AB".toList) = Except.ok "X" ∧
    mod3736CheckDigit ("ABC987".toList) = Except.ok "E" := by
  refine ⟨?_, rfl, rfl, rfl, rfl⟩
  intro s h
  have hvals : ∀ v ∈ s.map specSymVal, 0 ≤ v ∧ v ≤ 35 := by
    intro v hv
    obtain ⟨c, hc, rfl⟩ := List.mem_map.mp hv
    exact (base36_symVal c (h c hc)).2
  have hroll := specRoll_bounds (s.map specSymVal) hvals 36 (by norm_num) (by norm_num)
  have hmain : mod3736CheckDigit s = Except.ok (specMod3736 s) := by
    rw [mod3736CheckDigit, mod3736Go_eq s h 36]
    simp only [pybind_ok]
    have hrange : ¬ ((if 37 - specRoll 36 (s.map specSymVal) = 36 then 0
        else 37 - specRoll 36 (s.map specSymVal)) < 0 ∨
        36 ≤ (if 37 - specRoll 36 (s.map specSymVal) = 36 then 0
        else 37 - specRoll 36 (s.map specSymVal))) := by
      split_ifs <;> omega
    rw [if_neg hrange]
    rfl
  refine ⟨hmain, fun cd => ?_⟩
  simp [passesStr, hmain]

/-- Witness for C2 at the concrete serial `"A12345"`. -/
theorem C2_mod3736_scheme_witness :
    mod3736CheckDigit ("A12345".toList) = Except.ok (specMod3736 ("A12345".toList)) :=
  (C2_mod3736_scheme.1 ("A12345".toList) (by decide)).1

/-! ### C3 -/

/-- C3: for every serial number of decimal digits the S10 check digit equals
the spec formula (weights `[8,6,4,2,3,5,9,7]` on positions 0..7, positions
beyond 7 dropped by pairing truncation, sum mod 11, remainder 1 mapped to 0,
remainder 0 to 5, else 11 minus the remainder), and the three examples
evaluate as stated. -/
theorem C3_s10_formula :
    (∀ s : SerialNumber, (∀ c ∈ s, c.isDigit = true) →
      s10CheckDigit s = Except.ok (specS10 s)) ∧
    s10CheckDigit ("12345678".toList) = Except.ok 5 ∧
    s10CheckDigit ("45678".toList) = Except.ok 8 ∧
    s10CheckDigit ("00007".toList) = Except.ok 1 := by
  refine ⟨?_, by decide, by decide, by decide⟩
  intro s h
  have hz : ∀ p ∈ List.zip s s10Weights, (p.1).isDigit = true := by
    intro p hp
    exact h p.1 (List.of_mem_zip hp).1
  rw [s10CheckDigit, weightedSum_ok _ hz]
  simp only [pybind_ok, specS10, pypure]
  split_ifs <;> rfl

/-- Witness for C3 at the concrete serial `"45678"`. -/
theorem C3_s10_formula_witness :
    s10CheckDigit ("45678".toList) = Except.ok (specS10 ("45678".toList)) :=
  C3_s10_formula.1 ("45678".toList) (by decide)

/-! ### C4 -/

/-- C4: a candidate that does not fully match the definition's pattern yields
absent (no result at all, hence never a present result carrying validation
errors), and conversely every present result comes from a full match. -/
theorem C4_absence_contract (d : TrackingNumberDefinition) (s : String) :
    (d.numberRegex s = none → test d s = Except.ok none) ∧
    (∀ tn, test d s = Except.ok (some tn) → ∃ md, d.numberRegex s = some md) := by
  constructor
  · intro h
    simp [test, h]
  · intro tn h
    cases hr : d.numberRegex s with
    | none => rw [test, hr] at h; cases h
    | some md => exact ⟨md, rfl⟩

/-- Witness for C4: a non-matching candidate against the S10 definition. -/
theorem C4_absence_contract_witness : test defnC4 "not-a-number" = Except.ok none :=
  (C4_absence_contract defnC4 "not-a-number").1 (by decide)

/-! ### C5 -/

/-- Capture map whose `CheckDigit` group participates with an empty capture
(e.g. pattern `(?P<SerialNumber>\d{8})(?P<CheckDigit>\d?)`). -/
def mdC5 : MatchData := [("SerialNumber", some "12345678"), ("CheckDigit", some "")]

/-- An S10 definition whose pattern fully matches `"12345678"` with an empty
`CheckDigit` capture. -/
def defnC5 : TrackingNumberDefinition where
  courier := ⟨"s10", "S10 International Standard"⟩
  product := ⟨"S10"⟩
  numberRegex := fun s => if s = "12345678" then some mdC5 else none
  trackingUrlTemplate := none
  serialNumberParser := specDefaultParser
  additional := []
  additionalValidator := none
  checksumValidator := some ChecksumValidator.s10

/-- C5 counterexample: on a fully matching candidate the serial number is
present and the `CheckDigit` group captured a (present, empty) string, yet
the emitted error is `("checksum", "CheckDigit not found")` — the claim's
case analysis (present capture implies either a validator-check failure
error or no error) predicts a different outcome, because the code branches
on Python truthiness (`if not check_digit`), not on absence. -/
theorem C5_checksum_cases_counterexample :
    defnC5.numberRegex "12345678" = some mdC5 ∧
    mdGet mdC5 "CheckDigit" = some "" ∧
    resultSerial (test defnC5 "12345678") = some ("12345678".toList) ∧
    resultErrors (test defnC5 "12345678") = [("checksum", "CheckDigit not found")] :=
  ⟨rfl, rfl, rfl, rfl⟩

/-- C5 amended: the checksum rule contributes at most one validation error,
only when a Checksum Validator is configured, with the case analysis keyed
on Python falsiness: a missing-or-empty serial number gives
`("checksum", "SerialNumber not found")`; otherwise a missing-or-empty
`CheckDigit` capture gives `("checksum", "CheckDigit not found")`; otherwise,
when the capture parses numerically, a failing validator check gives
`("checksum", "Checksum validation failed")` and a passing one gives no
checksum error; and the full error list is the optional checksum error
followed by the additional-field errors. -/
theorem C5_checksum_cases (d : TrackingNumberDefinition)
    (serial : Option SerialNumber) (md : MatchData) :
    (d.checksumValidator = none → getChecksumErrors d serial md = Except.ok none) ∧
    (∀ v, d.checksumValidator = some v →
      ((serial = none ∨ serial = some []) →
        getChecksumErrors d serial md =
          Except.ok (some ("checksum", "SerialNumber not found"))) ∧
      (∀ l, serial = some l → l ≠ [] →
        ((mdGet md "CheckDigit" = none ∨ mdGet md "CheckDigit" = some "") →
          getChecksumErrors d serial md =
            Except.ok (some ("checksum", "CheckDigit not found"))) ∧
        (∀ cd, mdGet md "CheckDigit" = some cd → cd ≠ "" →
          ∀ n, pyInt cd = some n →
            (passesInt v l n = Except.ok true →
              getChecksumErrors d serial md = Except.ok none) ∧
            (passesInt v l n = Except.ok false →
              getChecksumErrors d serial md =
                Except.ok (some ("checksum", "Checksum validation failed")))))) ∧
    (∀ r, getChecksumErrors d serial md = Except.ok r →
      r = none ∨ ∃ msg, r = some ("checksum", msg)) ∧
    (∀ additional errs,
      getValidationErrors d serial additional md = Except.ok errs →
      ∃ copt, getChecksumErrors d serial md = Except.ok copt ∧
        errs = copt.toList ++ getAdditionalError d additional) := by
  refine ⟨?_, ?_, ?_, ?_⟩
  · intro h
    simp [getChecksumErrors, h]
  · intro v hv
    have hfalsy : ∀ l, serial = some l → l ≠ [] → serialFalsy serial = false := by
      intro l hl hne
      subst hl
      simpa [serialFalsy, List.isEmpty_iff] using hne
    refine ⟨?_, ?_⟩
    · intro hser
      rcases hser with rfl | rfl <;> simp [getChecksumErrors, hv, serialFalsy]
    · intro l hl hne
      have hf := hfalsy l hl hne
      refine ⟨?_, ?_⟩
      · intro hcd
        rcases hcd with hcd | hcd <;>
          simp [getChecksumErrors, hv, hf, hcd]
      · intro cd hcd hcdne n hn
        subst hl
        constructor
        · intro hp
          simp [getChecksumErrors, hv, hf, hcd, hcdne, hn, hp]
        · intro hp
          simp [getChecksumErrors, hv, hf, hcd, hcdne, hn, hp]
  · intro r hr
    unfold getChecksumErrors at hr
    split at hr
    · cases hr; exact Or.inl rfl
    · split at hr
      · cases hr; exact Or.inr ⟨_, rfl⟩
      · split at hr
        · cases hr; exact Or.inr ⟨_, rfl⟩
        · split at hr
          · cases hr; exact Or.inr ⟨_, rfl⟩
          · split at hr
            · cases hr
            · rename_i xcv v hcv hserialneg xmd cd hmd hcdne xn n hn
              cases hp : passesInt v (serial.getD []) n with
              | error e => rw [hp] at hr; simp at hr
              | ok b =>
                  rw [hp] at hr
                  simp only [pyexmap_ok, Except.ok.injEq] at hr
                  cases b
                  · exact Or.inr ⟨_, by simp at hr; exact hr.symm⟩
                  · exact Or.inl (by simp at hr; exact hr.symm)
  · intro additional errs herrs
    unfold getValidationErrors at herrs
    cases hce : getChecksumErrors d serial md with
    | error e => rw [hce] at herrs; cases herrs
    | ok copt =>
        rw [hce] at herrs
        simp only [pybind_ok, pypure, Except.ok.injEq] at herrs
        exact ⟨copt, rfl, herrs.symm⟩

/-- Witness for C5: the empty-capture branch evaluated at the concrete
definition. -/
theorem C5_checksum_cases_witness :
    getChecksumErrors defnC5 (some ("12345678".toList)) mdC5 =
      Except.ok (some ("checksum", "CheckDigit not found")) :=
  (((C5_checksum_cases defnC5 (some ("12345678".toList)) mdC5).2.1
      ChecksumValidator.s10 rfl).2 ("12345678".toList) rfl (by decide)).1
    (Or.inr rfl)

/-! ### C6 -/

/-- A value matcher that accepts every value. -/
def alwaysTrue : ValueMatcher := fun _ => true

/-- An Info payload for the counterexample extractor. -/
def infoCourExpress : Info := [("courier", PyVal.pystr "X Express")]

/-- Capture map with one present-but-empty capture (`G1`) and one nonempty
capture (`G2`). -/
def mdC6 : MatchData := [("G1", some ""), ("G2", some "bb")]

/-- A definition with two extractors: `A` is bound to the empty capture
`G1` with an always-matching matcher carrying a nonempty Info; `B` is bound
to `G2` with an always-matching matcher carrying an empty Info. -/
def defnC6 : TrackingNumberDefinition where
  courier := ⟨"c", "C"⟩
  product := ⟨"P"⟩
  numberRegex := fun s => if s = "Q" then some mdC6 else none
  trackingUrlTemplate := none
  serialNumberParser := specDefaultParser
  additional :=
    [⟨"A", "G1", [(alwaysTrue, infoCourExpress)]⟩,
     ⟨"B", "G2", [(alwaysTrue, [])]⟩]
  additionalValidator := none
  checksumValidator := none

/-- C6 counterexample: both bound capture groups are present in the match
and in each case the first matcher returns true, yet neither Info is
recorded — extractor `A` because the code treats a present-but-empty capture
as absent (`if not raw_value`), extractor `B` because the recording step
skips a falsy (empty) Info (`if info:`).  The claim predicts both Infos
recorded. -/
theorem C6_first_match_counterexample :
    defnC6.numberRegex "Q" = some mdC6 ∧
    mdGet mdC6 "G1" = some "" ∧
    alwaysTrue (removeWhitespace "") = true ∧
    mdGet mdC6 "G2" = some "bb" ∧
    firstMatchInfo (removeWhitespace "bb") [(alwaysTrue, [])] = some [] ∧
    resultAdditional (test defnC6 "Q") = [] :=
  ⟨rfl, rfl, rfl, rfl, rfl, rfl⟩

/-- C6 amended: for every extractor whose bound capture group is present
with a nonempty capture, the whitespace-stripped value is scanned against
the `(ValueMatcher, Info)` pairs in declaration order and the first match's
Info is the extracted result (`none` exactly when no matcher matches); the
extracted Info is recorded in the result map only when it is nonempty; and
a missing extraction by itself never adds a validation error — every
additional-field error comes from a key of the configured
AdditionalValidator's required list that is absent from the extracted map. -/
theorem C6_first_match_wins :
    (∀ (a : Additional) (md : MatchData) (raw : String),
      mdGet md a.regexGroupName = some raw → raw ≠ "" →
      getAdditionalInfo a md = firstMatchInfo (removeWhitespace raw) a.valueMatchers) ∧
    (∀ (value : String) (ms : List (ValueMatcher × Info)) (j : Nat) (hj : j < ms.length),
      (ms.get ⟨j, hj⟩).1 value = true →
      (∀ (i : Nat) (hi : i < j), (ms.get ⟨i, Nat.lt_trans hi hj⟩).1 value = false) →
      firstMatchInfo value ms = some (ms.get ⟨j, hj⟩).2) ∧
    (∀ (value : String) (ms : List (ValueMatcher × Info)),
      (∀ p ∈ ms, p.1 value = false) → firstMatchInfo value ms = none) ∧
    (∀ (d : TrackingNumberDefinition) (additional : List (String × Info))
        (p : ValidationError), p ∈ getAdditionalError d additional →
      ∃ av, d.additionalValidator = some av ∧ p.1 ∈ av.existsKeys ∧
        dget additional p.1 = none) ∧
    (∀ (md : MatchData) (as : List Additional),
      (as.map (fun a => a.name)).Nodup → ∀ a ∈ as,
      dget (buildAdditional as md) a.name =
        match getAdditionalInfo a md with
        | some info => if info = [] then none else some info
        | none => none) := by
  refine ⟨?_, firstMatchInfo_first, firstMatchInfo_none, ?_, ?_⟩
  · intro a md raw hraw hne
    simp [getAdditionalInfo, hraw, hne]
  · intro d additional p hp
    unfold getAdditionalError at hp
    cases hav : d.additionalValidator with
    | none => rw [hav] at hp; cases hp
    | some av =>
        rw [hav] at hp
        obtain ⟨k, hk, rfl⟩ := List.mem_map.mp hp
        obtain ⟨hkl, hkq⟩ := List.mem_filter.mp hk
        refine ⟨av, rfl, hkl, ?_⟩
        simpa [Option.isNone_iff_eq_none] using hkq
  · intro md as hnd a ha
    have h := buildGo_lookup md as hnd a ha []
    rw [buildAdditional, h]
    cases getAdditionalInfo a md with
    | none => rfl
    | some info =>
        by_cases he : info = [] <;> simp [he, dget]

/-- Witness for C6: a Service-Type-style extractor on a nonempty capture. -/
def addC6w : Additional :=
  ⟨"Service Type", "ServiceType",
    [(fun v => v = "RB", [("name", PyVal.pystr "Letter Post Registered")])]⟩

/-- Capture map for the C6 witness. -/
def mdC6w : MatchData := [("ServiceType", some "RB")]

/-- Witness for C6 applied at the concrete extractor. -/
theorem C6_first_match_wins_witness :
    getAdditionalInfo addC6w mdC6w =
      firstMatchInfo (removeWhitespace "RB") addC6w.valueMatchers :=
  C6_first_match_wins.1 addC6w mdC6w "RB" rfl (by decide)

/-! ### C7 -/

/-- A definition whose AdditionalValidator lists the required key
`"Courier"` twice. -/
def defnC7 : TrackingNumberDefinition where
  courier := ⟨"c", "C"⟩
  product := ⟨"P"⟩
  numberRegex := fun s => if s = "Z" then some [] else none
  trackingUrlTemplate := none
  serialNumberParser := specDefaultParser
  additional := []
  additionalValidator := some ⟨["Courier", "Courier"]⟩
  checksumValidator := none

/-- C7 counterexample: with the required key `"Courier"` listed twice and
absent from the extracted map, a `test` call on a fully matching candidate
emits two identical errors for that key — the claim's "exactly one
validation error for each required key that is absent" fails, because the
code emits one error per list entry, not per key. -/
theorem C7_required_keys_counterexample :
    defnC7.additionalValidator = some ⟨["Courier", "Courier"]⟩ ∧
    resultAdditional (test defnC7 "Z") = [] ∧
    resultErrors (test defnC7 "Z") =
      [("Courier", "Courier not found in additional information"),
       ("Courier", "Courier not found in additional information")] :=
  ⟨rfl, rfl, rfl⟩

/-- C7 amended: with an AdditionalValidator configured, the additional-field
errors are exactly one `(key, "<key> not found in additional information")`
entry per entry of the required list whose key is absent from the extracted
map; when the required list has no duplicate keys this is exactly one error
per absent required key, and no additional-field error is ever emitted for
a key that was extracted. -/
theorem C7_required_keys (d : TrackingNumberDefinition) (av : AdditionalValidator)
    (h : d.additionalValidator = some av) (additional : List (String × Info)) :
    getAdditionalError d additional =
      (av.existsKeys.filter (fun k => (dget additional k).isNone)).map
        (fun k => (k, k ++ " not found in additional information")) ∧
    (av.existsKeys.Nodup → ∀ k,
      ((getAdditionalError d additional).filter (fun p => p.1 = k)).length =
        if k ∈ av.existsKeys ∧ dget additional k = none then 1 else 0) ∧
    (∀ k, (dget additional k).isSome →
      ∀ p ∈ getAdditionalError d additional, p.1 ≠ k) := by
  have herr : getAdditionalError d additional =
      (av.existsKeys.filter (fun k => (dget additional k).isNone)).map
        (fun k => (k, k ++ " not found in additional information")) := by
    simp [getAdditionalError, h]
  refine ⟨herr, ?_, ?_⟩
  · intro hnd k
    rw [herr, List.filter_map]
    have hcomp :
        ((fun p : ValidationError => decide (p.1 = k)) ∘
          (fun k' => (k', k' ++ " not found in additional information"))) =
          fun k' => decide (k' = k) := by
      funext k'
      rfl
    rw [hcomp, List.length_map,
      length_filter_eq_of_nodup _ (List.Nodup.filter _ hnd) k]
    by_cases hmem : k ∈ av.existsKeys ∧ dget additional k = none
    · rw [if_pos hmem, if_pos]
      rw [List.mem_filter]
      exact ⟨hmem.1, by simp [hmem.2]⟩
    · rw [if_neg hmem, if_neg]
      rw [List.mem_filter]
      intro ⟨h1, h2⟩
      exact hmem ⟨h1, by simpa [Option.isNone_iff_eq_none] using h2⟩
  · intro k hk p hp heq
    rw [herr] at hp
    obtain ⟨k', hk', hfk⟩ := List.mem_map.mp hp
    obtain ⟨_, hq⟩ := List.mem_filter.mp hk'
    have : p.1 = k' := by rw [← hfk]
    rw [heq] at this
    subst this
    rw [Option.isSome_iff_exists] at hk
    obtain ⟨v, hv⟩ := hk
    simp [hv] at hq

/-- Witness for C7: a single-entry required list with the key absent. -/
theorem C7_required_keys_witness :
    getAdditionalError defnC7 [] =
      [("Courier", "Courier not found in additional information"),
       ("Courier", "Courier not found in additional information")] := by
  rw [(C7_required_keys defnC7 ⟨["Courier", "Courier"]⟩ rfl []).1]
  rfl

/-! ### C8 -/

/-- C8: when the `ServiceType` group captured a value and the
`"Service Type"` extractor matched an Info, the `service_type` view equals
that Info extended with a `"code"` key holding the raw capture whenever the
Info itself omits `"code"` (an Info-supplied `"code"` wins, and every other
key reads back exactly as in the Info).  Stated via lookups, matching
Python dict equality; the Info is assumed key-duplicate-free, as every
Python dict is. -/
theorem C8_service_type_view (tn : TrackingNumber) (v : String) (info : Info)
    (h1 : mdGet tn.matchData "ServiceType" = some v)
    (h2 : dget tn.additional "Service Type" = some info)
    (hwf : (info.map Prod.fst).Nodup) :
    (dget info "code" = none →
      dget (serviceType tn) "code" = some (PyVal.pystr v)) ∧
    (∀ w, dget info "code" = some w → dget (serviceType tn) "code" = some w) ∧
    (∀ k, k ≠ "code" → dget (serviceType tn) k = dget info k) := by
  have hst : serviceType tn = dunion [("code", PyVal.pystr v)] info := by
    simp [serviceType, h1, h2, optStrVal]
  rw [hst]
  have hu := dget_dunion [("code", PyVal.pystr v)] info hwf
  refine ⟨?_, ?_, ?_⟩
  · intro hc
    rw [hu "code", hc]
    simp [dget]
  · intro w hw
    rw [hu "code", hw]
  · intro k hk
    rw [hu k]
    cases hik : dget info k with
    | some w => rfl
    | none => simp [dget, hk]

/-- The Service Type Info of the S10 example. -/
def infoRB : Info :=
  [("code", PyVal.pystr "RB"), ("name", PyVal.pystr "Letter Post Registered"),
   ("description", PyVal.pystr "Prepaid first-class mail.")]

/-- A result whose `ServiceType` capture is `"RB"` with the matched
`"Service Type"` Info of the example. -/
def tnC8 : TrackingNumber where
  number := "RB123456785GB"
  courier := ⟨"s10", "S10 International Standard"⟩
  product := ⟨"S10"⟩
  serialNumber := some ("123456785".toList)
  trackingUrl := none
  matchData := [("ServiceType", some "RB")]
  additional := [("Service Type", infoRB)]
  validationErrors := []

/-- Witness for C8 at the example result. -/
theorem C8_service_type_view_witness :
    dget (serviceType tnC8) "code" = some (PyVal.pystr "RB") :=
  (C8_service_type_view tnC8 "RB" infoRB rfl rfl (by decide)).2.1
    (PyVal.pystr "RB") rfl

/-! ### C9 -/

/-- C9 counterexample: the serial `"12345678X"` contains the non-digit
symbol `X`, yet `S10.passes` returns `True` for check digit `"5"` — the
ninth symbol is dropped by the `zip` pairing truncation before any numeric
parse, so no `ValueError` arises and the comparison succeeds.  This refutes
the claim that every numerically-compared variant returns `False` whenever
any non-digit symbol is present. -/
theorem C9_passes_counterexample :
    ('X' ∈ ("12345678X".toList)) ∧ ('X'.isDigit = false) ∧
    passesStr ChecksumValidator.s10 ("12345678X".toList) "5" = Except.ok true :=
  ⟨by decide, by decide, rfl⟩

theorem mapInl_error (r : Except PyError Int) (e : PyError)
    (h : Except.map Sum.inl r = (Except.error e : Except PyError (Int ⊕ String))) :
    r = Except.error e := by
  cases r with
  | ok n => simp at h
  | error e2 => simpa using h

/-- C9 amended: for the numerically-compared variants the public `passes`
never raises — it always returns a boolean (for
SumProductWithWeightsAndModulo provided the configured moduli are nonzero,
zero moduli being a configuration error) — and a non-digit symbol forces a
`False` result exactly when the variant's numeric parse reaches it: anywhere
in the serial for Mod10 and Luhn, within the weight-paired prefix (positions
0..7, resp. the weights list length) for S10 and SumProduct, and for Mod7
whenever the concatenated serial fails the integer parse. -/
theorem C9_passes_no_raise :
    (∀ (s : SerialNumber) (cd : String),
      ∃ b, passesStr ChecksumValidator.s10 s cd = Except.ok b) ∧
    (∀ (o ev : Option Int) (s : SerialNumber) (cd : String),
      ∃ b, passesStr (ChecksumValidator.mod10 o ev) s cd = Except.ok b) ∧
    (∀ (s : SerialNumber) (cd : String),
      ∃ b, passesStr ChecksumValidator.mod7 s cd = Except.ok b) ∧
    (∀ (w : List Int) (m1 m2 : Int), m1 ≠ 0 → m2 ≠ 0 →
      ∀ (s : SerialNumber) (cd : String),
      ∃ b, passesStr (ChecksumValidator.sumProduct w m1 m2) s cd = Except.ok b) ∧
    (∀ (s : SerialNumber) (cd : String),
      ∃ b, passesStr ChecksumValidator.luhn s cd = Except.ok b) ∧
    (∀ (o ev : Option Int) (s : SerialNumber) (cd : String) (c : Char),
      c ∈ s → c.isDigit = false →
      passesStr (ChecksumValidator.mod10 o ev) s cd = Except.ok false) ∧
    (∀ (s : SerialNumber) (cd : String) (c : Char),
      c ∈ s → c.isDigit = false →
      passesStr ChecksumValidator.luhn s cd = Except.ok false) ∧
    (∀ (s : SerialNumber) (cd : String), pyInt (String.mk s) = none →
      passesStr ChecksumValidator.mod7 s cd = Except.ok false) ∧
    (∀ (s : SerialNumber) (cd : String) (c : Char),
      c ∈ s.take 8 → c.isDigit = false →
      passesStr ChecksumValidator.s10 s cd = Except.ok false) ∧
    (∀ (w : List Int) (m1 m2 : Int) (s : SerialNumber) (cd : String) (c : Char),
      c ∈ s.take w.length → c.isDigit = false →
      passesStr (ChecksumValidator.sumProduct w m1 m2) s cd = Except.ok false) := by
  refine ⟨?_, ?_, ?_, ?_, ?_, ?_, ?_, ?_, ?_, ?_⟩
  · intro s cd
    exact defaultPasses_total _ cd (fun e he =>
      s10CheckDigit_error_type s e (mapInl_error _ e he))
  · intro o ev s cd
    exact defaultPasses_total _ cd (fun e he =>
      mod10CheckDigit_error_type o ev s e (mapInl_error _ e he))
  · intro s cd
    exact defaultPasses_total _ cd (fun e he =>
      mod7CheckDigit_error_type s e (mapInl_error _ e he))
  · intro w m1 m2 hm1 hm2 s cd
    exact defaultPasses_total _ cd (fun e he =>
      sumProductCheckDigit_error_type w m1 m2 hm1 hm2 s e (mapInl_error _ e he))
  · intro s cd
    exact defaultPasses_total _ cd (fun e he =>
      luhnCheckDigit_error_type s e (mapInl_error _ e he))
  · intro o ev s cd c hc hdig
    have h1 : mod10CheckDigit o ev s = Except.error PyError.valueError := by
      simp [mod10CheckDigit, mod10Total_error_of_mem o ev s 0 c hc hdig]
    simp [passesStr, checkDigit, defaultPasses, h1]
  · intro s cd c hc hdig
    have h1 : luhnCheckDigit s = Except.error PyError.valueError := by
      simp [luhnCheckDigit,
        luhnTotal_error_of_mem s.reverse 0 c (List.mem_reverse.mpr hc) hdig]
    simp [passesStr, checkDigit, defaultPasses, h1]
  · intro s cd hp
    have h1 : mod7CheckDigit s = Except.error PyError.valueError := by
      simp [mod7CheckDigit, toIntSerial, hp]
    simp [passesStr, checkDigit, defaultPasses, h1]
  · intro s cd c hc hdig
    obtain ⟨w, hw⟩ := mem_take_imp_mem_zip s s10Weights c hc
    have h1 : s10CheckDigit s = Except.error PyError.valueError := by
      simp [s10CheckDigit, weightedSum_error_of_mem _ (c, w) hw hdig]
    simp [passesStr, checkDigit, defaultPasses, h1]
  · intro w m1 m2 s cd c hc hdig
    obtain ⟨wt, hw⟩ := mem_take_imp_mem_zip s w c hc
    have h1 : sumProductCheckDigit w m1 m2 s = Except.error PyError.valueError := by
      simp [sumProductCheckDigit, weightedSum_error_of_mem _ (c, wt) hw hdig]
    simp [passesStr, checkDigit, defaultPasses, h1]

/-- Witness for C9: Mod10 on a serial containing `X` returns `False`. -/
theorem C9_passes_no_raise_witness :
    passesStr (ChecksumValidator.mod10 none none) ("1X".toList) "0" =
      Except.ok false :=
  C9_passes_no_raise.2.2.2.2.2.1 none none ("1X".toList) "0" 'X'
    (by decide) (by decide)

/-! ### C10 -/

/-- C10: the `courier_info` view starts from the Courier's `{code, name}`,
then merges the matched `"Courier"` Info with the fixed rewrites (skip
`None` values, `"courier"` overwrites `"name"`, `"courier_url"` lands under
`"url"`, everything else verbatim); with no matched Info it is exactly the
Courier's own `{code, name}`; and the result's Courier is the one copied
from the Definition by `test`. -/
theorem C10_courier_info_view (tn : TrackingNumber) :
    courierInfo tn = specCourierInfo tn.courier (dget tn.additional "Courier") ∧
    (dget tn.additional "Courier" = none →
      courierInfo tn =
        [("code", PyVal.pystr tn.courier.code),
         ("name", PyVal.pystr tn.courier.name)]) ∧
    (∀ (d : TrackingNumberDefinition) (s : String),
      test d s = Except.ok (some tn) → tn.courier = d.courier) := by
  refine ⟨?_, ?_, ?_⟩
  · cases h : dget tn.additional "Courier" with
    | none => simp [courierInfo, h, specCourierInfo]
    | some info =>
        simp only [courierInfo, h, Option.getD_some, specCourierInfo]
        exact foldl_courierMergeStep_eq info _
  · intro h
    simp [courierInfo, h]
  · intro d s h
    cases hr : d.numberRegex s with
    | none => simp only [test, hr] at h; simp at h
    | some md =>
        simp only [test, hr] at h
        cases hv : getValidationErrors d (getSerialNumber d md)
            (buildAdditional d.additional md) md with
        | error e => rw [hv] at h; simp at h
        | ok errs =>
            rw [hv] at h
            simp only [pybind_ok, pypure, Except.ok.injEq, Option.some.injEq] at h
            rw [← h]

/-- A bare result with no matched `"Courier"` Info. -/
def tnC10 : TrackingNumber where
  number := "N"
  courier := ⟨"s10", "S10 International Standard"⟩
  product := ⟨"P"⟩
  serialNumber := none
  trackingUrl := none
  matchData := []
  additional := []
  validationErrors := []

/-- Witness for C10 at the bare result. -/
theorem C10_courier_info_view_witness :
    courierInfo tnC10 =
      [("code", PyVal.pystr "s10"), ("name", PyVal.pystr "S10 International Standard")] :=
  (C10_courier_info_view tnC10).2.1 rfl

end TrackingNumbers
